import Mathlib

set_option maxRecDepth 8192

/-!
Shallow embedding of the SnapLock NVIDIA asset pipeline
(`scripts/download_nvidia_assets.py`).

External effects (filesystem lookups, the network, subprocess tools) are
modelled by an explicit environment `Env` of oracles, and every operation
of the pipeline returns its Python result together with the ordered trace
of side-effecting events it performed.  Paths are strings built exactly as
the Python code builds them with `pathlib` operators.
-/

namespace SnapLock

/-- Configuration of one asset pack: one entry of the `NVIDIA_ASSETS`
dictionary (key plus value fields), lines 16-35 of the source. -/
structure PackConfig where
  id : String
  url : String
  category : String
  physics : Bool
  description : String
deriving DecidableEq, Repr

/-- The three entries of `NVIDIA_ASSETS`, in dictionary insertion order. -/
def NVIDIA_ASSETS : List PackConfig :=
  [ { id := "simready_warehouse_01"
    , url := "https://omniverse-content-production.s3-us-west-2.amazonaws.com/Assets/ArchVis/Commercial/Warehouse/SimReady_Props_Warehouse_01.zip"
    , category := "warehouse"
    , physics := true
    , description := "Physics-enabled warehouse props (pallets, crates, barrels)" }
  , { id := "simready_containers"
    , url := "https://omniverse-content-production.s3-us-west-2.amazonaws.com/Assets/ArchVis/Industrial/Shipping_Containers/SimReady_Containers_and_Shipping_01.zip"
    , category := "industrial"
    , physics := true
    , description := "Industrial shipping containers and cargo boxes" }
  , { id := "simready_furniture"
    , url := "https://omniverse-content-production.s3-us-west-2.amazonaws.com/Assets/ArchVis/Commercial/Furniture/SimReady_Furniture_and_Misc.zip"
    , category := "furniture"
    , physics := true
    , description := "Interior and exterior furniture with physics" } ]

/-- Observable side-effecting events of one pipeline run, in order. -/
inductive Event where
  /-- `requests.get(url, stream=True)` (line 62). -/
  | netGet (url : String)
  /-- `open(zip_path, 'wb')` (line 68): creation of the archive file. -/
  | openWrite (path : String)
  /-- one `f.write(chunk)` of the streaming loop (line 70). -/
  | writeChunk (path : String) (size : Nat)
  /-- `zip_ref.extractall(extract_dir)` (line 96). -/
  | extractTo (dir : String)
  /-- a call of `convert_usd_to_gltf` on one located file (line 189). -/
  | tryConvert (input output : String)
  /-- the `usd2gltf` subprocess (lines 120-124). -/
  | runUsd2gltf (input output : String)
  /-- `script_path.write_text(blender_script)` (line 140). -/
  | writeText (path content : String)
  /-- the `blender --background --python script` subprocess (lines 142-146). -/
  | runBlender (script : String)
  /-- `json.dump` of the registry into the metadata file (lines 210-211). -/
  | save (path : String)
deriving DecidableEq, Repr

/-- Outcome of `requests.get` on one URL. -/
inductive NetOutcome where
  /-- `requests.get` itself raises (connection error). -/
  | getRaises
  /-- the response carries a non-2xx status, so `raise_for_status` raises
  (line 63) before the archive file is opened. -/
  | badStatus
  /-- a stream of chunk sizes; when `fails = true` the stream raises
  mid-iteration after all listed chunks were written. -/
  | stream (chunks : List Nat) (fails : Bool)
deriving DecidableEq, Repr

/-- Exceptions that can escape one pack's processing, by stage. -/
inductive PErr where
  | downloadErr
  | extractErr
  | convErr
deriving DecidableEq, Repr

/-- Oracle environment: everything the pipeline observes about the world.
`writeTextOk` is keyed by path and content so that distinct script writes
of one run can succeed or fail independently. -/
structure Env where
  baseDir : String
  zipExists : String → Bool
  extractedExists : String → Bool
  netOutcome : String → NetOutcome
  extractOk : String → Bool
  treeFiles : String → List String
  usd2gltfAvail : Bool
  blenderAvail : Bool
  usd2gltfOk : String → Bool
  blenderOk : String → Bool
  writeTextOk : String → String → Bool

/-- `self.download_dir = base_dir / "downloads" / "usd"` (line 40). -/
def download_dir (base : String) : String := base ++ "/downloads/usd"

/-- `self.output_dir = base_dir / "public" / "assets"` (line 41). -/
def output_dir (base : String) : String := base ++ "/public/assets"

/-- `self.metadata_file = output_dir / "asset_registry.json"` (line 42). -/
def metadata_file (base : String) : String := output_dir base ++ "/asset_registry.json"

/-- `zip_path = download_dir / f"{pack_id}.zip"` (line 55). -/
def zipPath (base packId : String) : String := download_dir base ++ "/" ++ packId ++ ".zip"

/-- `extract_dir = download_dir / pack_id` (line 85). -/
def extractDir (base packId : String) : String := download_dir base ++ "/" ++ packId

/-- `script_path = download_dir / "convert.py"` (line 139). -/
def scriptPath (base : String) : String := download_dir base ++ "/convert.py"

/-- The f-string Blender conversion script of lines 133-138, after
interpolation of the input and output paths. -/
def blenderScript (input output : String) : String :=
  "\nimport bpy\nbpy.ops.wm.usd_import(filepath=\"" ++ input ++
    "\")\nbpy.ops.export_scene.gltf(filepath=\"" ++ output ++
    "\", export_format=\x27GLB\x27)\nbpy.ops.wm.quit_blender()\n"

/-- `AssetPipeline.download_asset_pack` (lines 50-81), for one pack id and
URL.  Returns the Python result (the archive path, or the escaping
exception) together with the trace of events performed. -/
def download_asset_pack (env : Env) (packId url : String) :
    Except PErr String × List Event :=
  let zip := zipPath env.baseDir packId
  if env.zipExists zip then
    (.ok zip, [])
  else
    match env.netOutcome url with
    | .getRaises => (.error .downloadErr, [.netGet url])
    | .badStatus => (.error .downloadErr, [.netGet url])
    | .stream chunks fails =>
      let evs : List Event :=
        .netGet url :: .openWrite zip :: chunks.map (Event.writeChunk zip)
      if fails then (.error .downloadErr, evs) else (.ok zip, evs)

/-- `AssetPipeline.extract_pack` (lines 83-101). -/
def extract_pack (env : Env) (zip packId : String) :
    Except PErr String × List Event :=
  let dir := extractDir env.baseDir packId
  if env.extractedExists dir then
    (.ok dir, [])
  else if env.extractOk zip then
    (.ok dir, [.extractTo dir])
  else
    (.error .extractErr, [.extractTo dir])

/-- `rglob(f'*{ext}')` membership test: the file name ends with `ext`
(the pattern star does not cross directory separators, so matching the
basename against `*ext` is the same as a suffix test on the path). -/
def extMatches (ext f : String) : Bool :=
  decide (f.data.reverse.take ext.data.length = ext.data.reverse)

/-- `usd_extensions` (line 105). -/
def usd_extensions : List String := [".usd", ".usda", ".usdc", ".usdz"]

/-- `AssetPipeline.find_usd_files` (lines 103-111): one `rglob` pass per
extension, results of the passes concatenated in extension order.  The
argument models the recursive traversal order of the directory tree, and
each `rglob` pass yields the matching files in that order. -/
def find_usd_files (files : List String) : List String :=
  usd_extensions.foldl (fun acc ext => acc ++ files.filter (extMatches ext)) []

/-- A file matching at least one of the four recognized extensions. -/
def isUsdFile (f : String) : Bool :=
  usd_extensions.any (fun e => extMatches e f)

/-- Characters after the last slash of a path (`pathlib` name). -/
def baseNameChars (cs : List Char) : List Char :=
  (cs.reverse.takeWhile (fun c => !(c == '/'))).reverse

/-- `pathlib` stem of a name: the name with its suffix removed, where the
suffix starts at the last dot provided that dot is neither the first nor
the last character of the name. -/
def stemChars (cs : List Char) : List Char :=
  let r := cs.reverse
  let pre := r.takeWhile (fun c => !(c == '.'))
  let n := cs.length
  if pre.length = n then cs
  else if pre.length = 0 then cs
  else if n - 1 - pre.length = 0 then cs
  else cs.take (n - 1 - pre.length)

/-- `usd_file.stem` (line 186). -/
def stem (p : String) : String := ⟨stemChars (baseNameChars p.data)⟩

/-- `asset_name.replace('_', ' ')` (line 192). -/
def underscoreToSpace (s : String) : String :=
  ⟨s.data.map (fun c => if c == '_' then ' ' else c)⟩

/-- One step of Python `str.title()`: an alphabetic character is
uppercased after a non-alphabetic character and lowercased otherwise. -/
def titleAux : List Char → Bool → List Char
  | [], _ => []
  | c :: cs, prevAlpha =>
    (if c.isAlpha then (if prevAlpha then c.toLower else c.toUpper) else c)
      :: titleAux cs c.isAlpha

/-- Python `str.title()` (line 192). -/
def pythonTitle (s : String) : String := ⟨titleAux s.data false⟩

/-- One registry record (the `asset_metadata` dictionary, lines 190-198). -/
structure AssetMeta where
  id : String
  name : String
  path : String
  category : String
  physics_enabled : Bool
  source : String
  thumbnail : String
deriving DecidableEq, Repr

/-- The `asset_metadata` value built for one converted asset. -/
def assetMeta (packId cat : String) (physics : Bool) (assetName : String) :
    AssetMeta :=
  { id := packId ++ "_" ++ assetName
  , name := pythonTitle (underscoreToSpace assetName)
  , path := "/assets/" ++ cat ++ "/" ++ assetName ++ ".glb"
  , category := cat
  , physics_enabled := physics
  , source := "NVIDIA Omniverse"
  , thumbnail := "/assets/" ++ cat ++ "/" ++ assetName ++ "_thumb.jpg" }

/-- The metadata record produced for located file `f` of pack `pack`. -/
def metaOf (pack : PackConfig) (f : String) : AssetMeta :=
  assetMeta pack.id pack.category pack.physics (stem f)

/-- `AssetPipeline.convert_usd_to_gltf` (lines 113-155).  A
`CalledProcessError` of either subprocess is caught inside the function;
only a failure of `script_path.write_text` escapes it. -/
def convert_usd_to_gltf (env : Env) (input output : String) :
    Except PErr Bool × List Event :=
  let t1 : List Event :=
    if env.usd2gltfAvail then [.runUsd2gltf input output] else []
  if env.usd2gltfAvail && env.usd2gltfOk input then
    (.ok true, t1)
  else if env.blenderAvail then
    let sp := scriptPath env.baseDir
    let c := blenderScript input output
    if env.writeTextOk sp c then
      if env.blenderOk input then
        (.ok true, t1 ++ [.writeText sp c, .runBlender sp])
      else
        (.ok false, t1 ++ [.writeText sp c, .runBlender sp])
    else
      (.error .convErr, t1 ++ [.writeText sp c])
  else
    (.ok false, t1)

/-- Pure description of a conversion outcome when no exception occurs:
`usd2gltf` is available and succeeds on the file, or Blender is available
and succeeds on it. -/
def convertOk (env : Env) (f : String) : Bool :=
  (env.usd2gltfAvail && env.usd2gltfOk f) ||
    (env.blenderAvail && env.blenderOk f)

/-- `gltf_output = category_dir / f"{asset_name}.glb"` (line 187). -/
def outPath (env : Env) (pack : PackConfig) (f : String) : String :=
  output_dir env.baseDir ++ "/" ++ pack.category ++ "/" ++ stem f ++ ".glb"

/-- The conversion loop of `process_asset_pack` (lines 183-199) over a
list of located files, accumulating `converted_assets` in order. -/
def convertLoop (env : Env) (pack : PackConfig) :
    List String → Except PErr (List AssetMeta) × List Event
  | [] => (.ok [], [])
  | f :: fs =>
    let out := outPath env pack f
    let c := convert_usd_to_gltf env f out
    match c.1 with
    | .error e => (.error e, .tryConvert f out :: c.2)
    | .ok b =>
      let rest := convertLoop env pack fs
      match rest.1 with
      | .error e => (.error e, (Event.tryConvert f out :: c.2) ++ rest.2)
      | .ok metas =>
        (.ok (if b then metaOf pack f :: metas else metas),
          (Event.tryConvert f out :: c.2) ++ rest.2)

/-- `AssetPipeline.process_asset_pack` (lines 163-206) up to the registry
update: download, extract, locate, and convert the first ten located
files.  On success it returns the `converted_assets` list that lines
201-204 then append to the registry; the registry update itself is
performed by the caller model (`runLoop`), which mirrors the fact that a
pack whose processing raises never reaches the update. -/
def process_asset_pack (env : Env) (pack : PackConfig) :
    Except PErr (List AssetMeta) × List Event :=
  let d := download_asset_pack env pack.id pack.url
  match d.1 with
  | .error e => (.error e, d.2)
  | .ok zip =>
    let x := extract_pack env zip pack.id
    match x.1 with
    | .error e => (.error e, d.2 ++ x.2)
    | .ok dir =>
      let files := find_usd_files (env.treeFiles dir)
      let c := convertLoop env pack (files.take 10)
      (c.1, d.2 ++ x.2 ++ c.2)

/-- The files found by the locator for one pack: `find_usd_files` over
the traversal of its extraction directory (line 176). -/
def locatedFiles (env : Env) (pack : PackConfig) : List String :=
  find_usd_files (env.treeFiles (extractDir env.baseDir pack.id))

/-- In-memory registry (`self.registry`): category to ordered record
list, absent categories reading as the empty list. -/
def Registry := String → List AssetMeta

/-- The registry at orchestrator start (line 48). -/
def emptyRegistry : Registry := fun _ => []

/-- The registry update of lines 201-204: install `[]` for an absent
category, then `extend` with the pack's converted assets. -/
def recordAssets (reg : Registry) (cat : String) (metas : List AssetMeta) :
    Registry :=
  fun c => if c = cat then reg c ++ metas else reg c

/-- Outcome of one pack under the state machine of the design: a pack
whose processing returns is cataloged, one whose processing raises has
failed. -/
inductive PackStatus where
  | cataloged
  | failed
deriving DecidableEq, Repr

/-- Final state of one pack's processing. -/
def packStatus (env : Env) (pack : PackConfig) : PackStatus :=
  match (process_asset_pack env pack).1 with
  | .ok _ => .cataloged
  | .error _ => .failed

/-- The pack loop of `AssetPipeline.run` (lines 227-232): each pack is
processed inside `try/except Exception/continue`, so an exception leaves
the registry untouched and the loop proceeds. -/
def runLoop (env : Env) :
    List PackConfig → Registry → Registry × List Event
  | [], reg => (reg, [])
  | p :: ps, reg =>
    let pr := process_asset_pack env p
    let reg2 : Registry :=
      match pr.1 with
      | .error _ => reg
      | .ok metas => recordAssets reg p.category metas
    let rest := runLoop env ps reg2
    (rest.1, pr.2 ++ rest.2)

/-- `AssetPipeline.run` (lines 215-234): the pack loop followed by the
single unconditional `save_registry()` call. -/
def run (env : Env) (packs : List PackConfig) : Registry × List Event :=
  let r := runLoop env packs emptyRegistry
  (r.1, r.2 ++ [.save (metadata_file env.baseDir)])

/-- Trace of the pack loop; `runLoop_trace_indep` below shows the trace
does not depend on the registry argument. -/
def loopTrace (env : Env) (ps : List PackConfig) : List Event :=
  (runLoop env ps emptyRegistry).2

/-- Recognizer of the registry-save event. -/
def isSave : Event → Bool
  | .save _ => true
  | _ => false

/-- Number of registry saves in a trace. -/
def countSave (evs : List Event) : Nat := (evs.filter isSave).length

/-- Inputs passed to the converter, in call order. -/
def tryInputs (evs : List Event) : List String :=
  evs.filterMap fun e =>
    match e with
    | .tryConvert i _ => some i
    | _ => none

/-- Recognizer of script-write events. -/
def isWriteText : Event → Bool
  | .writeText _ _ => true
  | _ => false

/-- Recognizer of events of the Blender strategy (script write or Blender
subprocess). -/
def isBlenderEvent : Event → Bool
  | .writeText _ _ => true
  | .runBlender _ => true
  | _ => false

/-- The Blender-strategy events of a trace. -/
def blenderEvents (evs : List Event) : List Event := evs.filter isBlenderEvent

instance instDecEqExcept {ε α : Type} [DecidableEq ε] [DecidableEq α] :
    DecidableEq (Except ε α) := fun x y =>
  match x, y with
  | .ok a, .ok b => if h : a = b then isTrue (by rw [h]) else isFalse (by simp [h])
  | .error a, .error b => if h : a = b then isTrue (by rw [h]) else isFalse (by simp [h])
  | .ok _, .error _ => isFalse (by simp)
  | .error _, .ok _ => isFalse (by simp)

/-- A concrete environment used by the evaluation witnesses below;
individual witnesses override the fields they exercise. -/
def baseEnvW : Env :=
  { baseDir := "B"
  , zipExists := fun _ => true
  , extractedExists := fun _ => true
  , netOutcome := fun _ => .badStatus
  , extractOk := fun _ => true
  , treeFiles := fun _ => []
  , usd2gltfAvail := true
  , blenderAvail := false
  , usd2gltfOk := fun _ => true
  , blenderOk := fun _ => false
  , writeTextOk := fun _ _ => true }

/-- A concrete pack used by the evaluation witnesses below. -/
def packW : PackConfig :=
  { id := "p1"
  , url := "https://example.test/p1.zip"
  , category := "warehouse"
  , physics := true
  , description := "witness pack" }

/-- C4: recording assets under a category appends them after the existing
entries of that category, preserving insertion order; the category's
length grows by exactly the number of recorded assets, and every other
category is unchanged (`process_asset_pack` lines 201-204). -/
theorem registry_append_only (reg : Registry) (cat : String)
    (metas : List AssetMeta) :
    recordAssets reg cat metas cat = reg cat ++ metas
    ∧ (recordAssets reg cat metas cat).length
        = (reg cat).length + metas.length
    ∧ ∀ c, c ≠ cat → recordAssets reg cat metas c = reg c := by
  refine ⟨by simp [recordAssets], by simp [recordAssets], ?_⟩
  intro c hc
  simp [recordAssets, hc]

/-- C4 witness: recording one asset under `warehouse` in the empty
registry yields that single entry there and leaves `industrial` empty. -/
theorem registry_append_only_witness :
    recordAssets emptyRegistry "warehouse" [metaOf packW "crate.usd"] "warehouse"
      = [metaOf packW "crate.usd"]
    ∧ recordAssets emptyRegistry "warehouse" [metaOf packW "crate.usd"] "industrial"
      = [] :=
  ⟨(registry_append_only emptyRegistry "warehouse" [metaOf packW "crate.usd"]).1,
    (registry_append_only emptyRegistry "warehouse"
      [metaOf packW "crate.usd"]).2.2 "industrial" (by decide)⟩

/-- C5: when the archive already exists at the expected path,
`download_asset_pack` returns that path with an empty event trace — no
network request, no file creation, no write (lines 55-59). -/
theorem idempotent_download (env : Env) (packId url : String)
    (h : env.zipExists (zipPath env.baseDir packId) = true) :
    download_asset_pack env packId url
      = (.ok (zipPath env.baseDir packId), []) := by
  simp [download_asset_pack, h]

/-- C5 witness at a concrete environment whose archive file exists. -/
theorem idempotent_download_witness :
    baseEnvW.zipExists (zipPath baseEnvW.baseDir "p1") = true
    ∧ download_asset_pack baseEnvW "p1" "https://example.test/p1.zip"
        = (.ok (zipPath baseEnvW.baseDir "p1"), []) :=
  ⟨rfl, idempotent_download baseEnvW "p1" "https://example.test/p1.zip" rfl⟩

/-- The environment of the C9 witness: archive absent, HTTP status bad. -/
def envBadStatus : Env := { baseEnvW with zipExists := fun _ => false }

/-- C9: if the archive is absent and the GET returns a non-2xx status,
`download_asset_pack` raises after the single network request and before
the archive file is ever opened for writing (lines 61-68); conversely any
`openWrite` event in a download trace implies the status check passed
(the outcome was a stream). -/
theorem download_no_file_on_bad_status (env : Env) (packId url : String) :
    (env.zipExists (zipPath env.baseDir packId) = false →
      env.netOutcome url = .badStatus →
      download_asset_pack env packId url
        = (.error .downloadErr, [.netGet url]))
    ∧ ∀ p, Event.openWrite p ∈ (download_asset_pack env packId url).2 →
        ∃ cs b, env.netOutcome url = .stream cs b := by
  constructor
  · intro h1 h2
    simp [download_asset_pack, h1, h2]
  · intro p hp
    by_cases hz : env.zipExists (zipPath env.baseDir packId)
    · simp [download_asset_pack, hz] at hp
    · rcases hn : env.netOutcome url with _ | _ | ⟨cs, b⟩
      · simp [download_asset_pack, hz, hn] at hp
      · simp [download_asset_pack, hz, hn] at hp
      · exact ⟨cs, b, rfl⟩

/-- C9 witness: at `envBadStatus` the download raises with only the
network request in its trace, so no file was created. -/
theorem download_no_file_on_bad_status_witness :
    download_asset_pack envBadStatus "p1" "u"
      = (.error .downloadErr, [.netGet "u"]) :=
  (download_no_file_on_bad_status envBadStatus "p1" "u").1 rfl rfl

/-- C10: every script write performed by `convert_usd_to_gltf` targets
the single fixed path `{downloadRoot}/convert.py` — independent of the
asset being converted, so successive conversions overwrite it — and its
content is determined solely by the input and output paths
(lines 131-146). -/
theorem blender_script_fixed_path (env : Env) (i o : String) :
    (convert_usd_to_gltf env i o).2.filter isWriteText = []
    ∨ (convert_usd_to_gltf env i o).2.filter isWriteText
        = [Event.writeText (scriptPath env.baseDir) (blenderScript i o)] := by
  cases hA : env.usd2gltfAvail <;> cases hO : env.usd2gltfOk i <;>
    cases hB : env.blenderAvail <;>
      cases hW : env.writeTextOk (scriptPath env.baseDir) (blenderScript i o) <;>
        cases hK : env.blenderOk i <;>
          simp [convert_usd_to_gltf, isWriteText, hA, hO, hB, hW, hK]

/-- The environment of the C2 witness: neither converter available. -/
def envNoTools : Env := { baseEnvW with usd2gltfAvail := false }

/-- C2: converter fallback order (lines 113-155).  If `usd2gltf` is
available and succeeds, the result is `True` with only the `usd2gltf`
subprocess in the trace and no Blender activity; if `usd2gltf` is
unavailable or fails, the Blender strategy is attempted whenever Blender
is available; when `usd2gltf` is available its subprocess is the first
event; when neither tool is available, or the attempted strategies all
fail with a non-zero exit status, the function returns `False` instead of
raising. -/
theorem converter_fallback_order (env : Env) (i o : String) :
    (env.usd2gltfAvail = true → env.usd2gltfOk i = true →
        (convert_usd_to_gltf env i o).1 = .ok true
        ∧ (convert_usd_to_gltf env i o).2 = [.runUsd2gltf i o]
        ∧ blenderEvents (convert_usd_to_gltf env i o).2 = [])
    ∧ ((env.usd2gltfAvail = false ∨ env.usd2gltfOk i = false) →
        env.blenderAvail = true →
        blenderEvents (convert_usd_to_gltf env i o).2 ≠ [])
    ∧ (env.usd2gltfAvail = true →
        (convert_usd_to_gltf env i o).2.head? = some (.runUsd2gltf i o))
    ∧ (env.usd2gltfAvail = false → env.blenderAvail = false →
        convert_usd_to_gltf env i o = (.ok false, []))
    ∧ (env.usd2gltfAvail = true → env.usd2gltfOk i = false →
        env.blenderAvail = false →
        (convert_usd_to_gltf env i o).1 = .ok false)
    ∧ ((env.usd2gltfAvail = false ∨ env.usd2gltfOk i = false) →
        env.blenderAvail = true →
        env.writeTextOk (scriptPath env.baseDir) (blenderScript i o) = true →
        env.blenderOk i = false →
        (convert_usd_to_gltf env i o).1 = .ok false) := by
  cases hA : env.usd2gltfAvail <;> cases hO : env.usd2gltfOk i <;>
    cases hB : env.blenderAvail <;>
      cases hW : env.writeTextOk (scriptPath env.baseDir) (blenderScript i o) <;>
        cases hK : env.blenderOk i <;>
          simp [convert_usd_to_gltf, blenderEvents, isBlenderEvent,
            hA, hO, hB, hW, hK]

/-- C2 witness: with neither converter tool available, conversion returns
`False` with an empty trace instead of raising. -/
theorem converter_fallback_order_witness :
    convert_usd_to_gltf envNoTools "x/in.usd" "y/out.glb" = (.ok false, []) :=
  (converter_fallback_order envNoTools "x/in.usd" "y/out.glb").2.2.2.1 rfl rfl

/-- When the converter returns (rather than raising), its boolean equals
the pure outcome `convertOk`. -/
theorem convert_ok_val (env : Env) (f o : String) (b : Bool)
    (h : (convert_usd_to_gltf env f o).1 = .ok b) : b = convertOk env f := by
  cases hA : env.usd2gltfAvail <;> cases hO : env.usd2gltfOk f <;>
    cases hB : env.blenderAvail <;>
      cases hW : env.writeTextOk (scriptPath env.baseDir) (blenderScript f o) <;>
        cases hK : env.blenderOk f <;>
          simp_all [convert_usd_to_gltf, convertOk]

/-- When every script write succeeds, the converter never raises and
returns `convertOk`. -/
theorem convert_noexc (env : Env) (f o : String)
    (hw : ∀ p c, env.writeTextOk p c = true) :
    (convert_usd_to_gltf env f o).1 = .ok (convertOk env f) := by
  cases hA : env.usd2gltfAvail <;> cases hO : env.usd2gltfOk f <;>
    cases hB : env.blenderAvail <;> cases hK : env.blenderOk f <;>
      simp [convert_usd_to_gltf, convertOk, hA, hO, hB, hK, hw]

/-- The converter itself performs no `tryConvert` events. -/
theorem tryInputs_convert (env : Env) (f o : String) :
    tryInputs (convert_usd_to_gltf env f o).2 = [] := by
  cases hA : env.usd2gltfAvail <;> cases hO : env.usd2gltfOk f <;>
    cases hB : env.blenderAvail <;>
      cases hW : env.writeTextOk (scriptPath env.baseDir) (blenderScript f o) <;>
        cases hK : env.blenderOk f <;>
          simp [convert_usd_to_gltf, tryInputs, hA, hO, hB, hW, hK]

/-- Successful conversion loops produce exactly the records of the
successfully converted files, in order. -/
theorem convertLoop_ok_metas (env : Env) (pack : PackConfig) :
    ∀ (fs : List String) (metas : List AssetMeta),
      (convertLoop env pack fs).1 = .ok metas →
      metas = (fs.filter (fun f => convertOk env f)).map (metaOf pack) := by
  intro fs
  induction fs with
  | nil =>
    intro metas h
    simp only [convertLoop, Except.ok.injEq] at h
    simp [← h]
  | cons f fs ih =>
    intro metas h
    simp only [convertLoop] at h
    rcases hc : (convert_usd_to_gltf env f (outPath env pack f)).1 with e | b
    · rw [hc] at h
      simp at h
    · rw [hc] at h
      rcases hr : (convertLoop env pack fs).1 with e | m
      · rw [hr] at h
        simp at h
      · rw [hr] at h
        simp only [Except.ok.injEq] at h
        have hb := convert_ok_val env f (outPath env pack f) b hc
        have hm := ih m hr
        subst hb hm
        cases hcv : convertOk env f <;> simp_all

/-- When every script write succeeds, the conversion loop never raises. -/
theorem convertLoop_noexc (env : Env) (pack : PackConfig)
    (hw : ∀ p c, env.writeTextOk p c = true) :
    ∀ fs : List String,
      (convertLoop env pack fs).1
        = .ok ((fs.filter (fun f => convertOk env f)).map (metaOf pack)) := by
  intro fs
  induction fs with
  | nil => rfl
  | cons f fs ih =>
    simp only [convertLoop]
    rw [convert_noexc env f (outPath env pack f) hw, ih]
    cases hcv : convertOk env f <;> simp [hcv]

/-- Converter inputs of a concatenated trace. -/
theorem tryInputs_append (a b : List Event) :
    tryInputs (a ++ b) = tryInputs a ++ tryInputs b := by
  simp [tryInputs]

/-- Converter inputs of a trace starting with a converter call. -/
theorem tryInputs_cons_try (i o : String) (evs : List Event) :
    tryInputs (.tryConvert i o :: evs) = i :: tryInputs evs := by
  simp [tryInputs]

/-- The converter calls of a conversion loop form an initial segment of
the file list it is given, and cover it entirely when no call raises. -/
theorem tryInputs_convertLoop (env : Env) (pack : PackConfig) :
    ∀ fs : List String,
      (∃ k, tryInputs (convertLoop env pack fs).2 = fs.take k)
      ∧ ∀ metas, (convertLoop env pack fs).1 = .ok metas →
          tryInputs (convertLoop env pack fs).2 = fs := by
  intro fs
  induction fs with
  | nil => exact ⟨⟨0, rfl⟩, fun _ _ => rfl⟩
  | cons f fs ih =>
    rcases ih with ⟨⟨k, hk⟩, hok⟩
    rcases hc : (convert_usd_to_gltf env f (outPath env pack f)).1 with e | b
    · refine ⟨⟨1, ?_⟩, ?_⟩
      · simp only [convertLoop]
        rw [hc]
        show tryInputs (.tryConvert f (outPath env pack f)
          :: (convert_usd_to_gltf env f (outPath env pack f)).2) = _
        rw [tryInputs_cons_try, tryInputs_convert env f (outPath env pack f)]
        rfl
      · intro metas h
        simp only [convertLoop] at h
        rw [hc] at h
        simp at h
    · have htr : (convertLoop env pack (f :: fs)).2
          = Event.tryConvert f (outPath env pack f)
              :: ((convert_usd_to_gltf env f (outPath env pack f)).2
                    ++ (convertLoop env pack fs).2) := by
        simp only [convertLoop]
        rw [hc]
        rcases hr : (convertLoop env pack fs).1 with e | m <;> simp [hr]
      refine ⟨⟨k + 1, ?_⟩, ?_⟩
      · rw [htr, tryInputs_cons_try, tryInputs_append,
          tryInputs_convert env f (outPath env pack f), hk]
        rfl
      · intro metas h
        simp only [convertLoop] at h
        rw [hc] at h
        rcases hr : (convertLoop env pack fs).1 with e | m
        · rw [hr] at h
          simp at h
        · rw [htr, tryInputs_cons_try, tryInputs_append,
            tryInputs_convert env f (outPath env pack f), hok m hr]
          rfl

/-- Neither the download stage nor the extraction stage calls the
converter. -/
theorem tryInputs_download (env : Env) (packId url : String) :
    tryInputs (download_asset_pack env packId url).2 = [] := by
  by_cases hz : env.zipExists (zipPath env.baseDir packId)
  · simp [download_asset_pack, hz, tryInputs]
  · rcases hn : env.netOutcome url with _ | _ | ⟨cs, b⟩ <;>
      [skip; skip; cases b] <;>
      simp [download_asset_pack, hz, hn, tryInputs]

/-- The extraction stage calls the converter on nothing. -/
theorem tryInputs_extract (env : Env) (zip packId : String) :
    tryInputs (extract_pack env zip packId).2 = [] := by
  by_cases hx : env.extractedExists (extractDir env.baseDir packId) <;>
    by_cases ho : env.extractOk zip <;>
      simp [extract_pack, hx, ho, tryInputs]

/-- Saves in a concatenated trace. -/
theorem countSave_append (a b : List Event) :
    countSave (a ++ b) = countSave a + countSave b := by
  simp [countSave, List.filter_append]

/-- Chunk writes are not saves. -/
theorem filter_save_chunks (zip : String) (cs : List Nat) :
    (cs.map (Event.writeChunk zip)).filter isSave = [] := by
  induction cs with
  | nil => rfl
  | cons c cs ih =>
    simp only [List.map_cons, List.filter_cons]
    simp [isSave, ih]

/-- The download stage never saves the registry. -/
theorem countSave_download (env : Env) (packId url : String) :
    countSave (download_asset_pack env packId url).2 = 0 := by
  by_cases hz : env.zipExists (zipPath env.baseDir packId)
  · simp [download_asset_pack, hz, countSave]
  · rcases hn : env.netOutcome url with _ | _ | ⟨cs, b⟩ <;>
      [skip; skip; cases b] <;>
      simp [download_asset_pack, hz, hn, countSave, isSave, filter_save_chunks]

/-- The extraction stage never saves the registry. -/
theorem countSave_extract (env : Env) (zip packId : String) :
    countSave (extract_pack env zip packId).2 = 0 := by
  by_cases hx : env.extractedExists (extractDir env.baseDir packId) <;>
    by_cases ho : env.extractOk zip <;>
      simp [extract_pack, hx, ho, countSave, isSave]

/-- The converter never saves the registry. -/
theorem countSave_convert (env : Env) (f o : String) :
    countSave (convert_usd_to_gltf env f o).2 = 0 := by
  cases hA : env.usd2gltfAvail <;> cases hO : env.usd2gltfOk f <;>
    cases hB : env.blenderAvail <;>
      cases hW : env.writeTextOk (scriptPath env.baseDir) (blenderScript f o) <;>
        cases hK : env.blenderOk f <;>
          simp [convert_usd_to_gltf, countSave, isSave, hA, hO, hB, hW, hK]

/-- The conversion loop never saves the registry. -/
theorem countSave_convertLoop (env : Env) (pack : PackConfig) :
    ∀ fs : List String, countSave (convertLoop env pack fs).2 = 0 := by
  intro fs
  induction fs with
  | nil => rfl
  | cons f fs ih =>
    rcases hc : (convert_usd_to_gltf env f (outPath env pack f)).1 with e | b
    · simp only [convertLoop]
      rw [hc]
      have := countSave_convert env f (outPath env pack f)
      simp_all [countSave, isSave]
    · simp only [convertLoop]
      rw [hc]
      rcases hr : (convertLoop env pack fs).1 with e | m <;>
        · have h1 := countSave_convert env f (outPath env pack f)
          have h2 := ih
          simp_all [countSave, isSave, List.filter_append]

/-- Processing one pack never saves the registry. -/
theorem countSave_process (env : Env) (pack : PackConfig) :
    countSave (process_asset_pack env pack).2 = 0 := by
  rcases hd : (download_asset_pack env pack.id pack.url).1 with e | z
  · simp only [process_asset_pack]
    rw [hd]
    exact countSave_download env pack.id pack.url
  · simp only [process_asset_pack]
    rw [hd]
    dsimp only
    rcases hx : (extract_pack env z pack.id).1 with e | dir
    · dsimp only
      rw [countSave_append, countSave_download, countSave_extract]
    · dsimp only
      rw [countSave_append, countSave_append, countSave_download,
        countSave_extract, countSave_convertLoop]

/-- Processing one pack calls the converter exactly on the events of its
own conversion loop. -/
theorem tryInputs_process (env : Env) (pack : PackConfig) :
    tryInputs (process_asset_pack env pack).2
      = tryInputs (convertLoop env pack ((locatedFiles env pack).take 10)).2
      ∨ tryInputs (process_asset_pack env pack).2 = [] := by
  rcases hd : (download_asset_pack env pack.id pack.url).1 with e | z
  · right
    simp only [process_asset_pack]
    rw [hd]
    exact tryInputs_download env pack.id pack.url
  · rcases hx : (extract_pack env z pack.id).1 with e | dir
    · right
      simp only [process_asset_pack]
      rw [hd]
      dsimp only
      rw [hx]
      dsimp only
      rw [tryInputs_append, tryInputs_download, tryInputs_extract]
      rfl
    · left
      have hdir : dir = extractDir env.baseDir pack.id := by
        by_cases h : env.extractedExists (extractDir env.baseDir pack.id) <;>
          by_cases ho : env.extractOk z <;>
            simp [extract_pack, h, ho] at hx <;> exact hx.symm
      simp only [process_asset_pack]
      rw [hd]
      dsimp only
      rw [hx]
      dsimp only
      rw [hdir, tryInputs_append, tryInputs_append, tryInputs_download,
        tryInputs_extract]
      rfl

/-- The pack-loop trace does not depend on the registry threaded through
it. -/
theorem runLoop_trace_indep (env : Env) :
    ∀ (ps : List PackConfig) (reg : Registry),
      (runLoop env ps reg).2 = loopTrace env ps := by
  intro ps
  induction ps with
  | nil => intro reg; rfl
  | cons p ps ih =>
    intro reg
    show (runLoop env (p :: ps) reg).2 = (runLoop env (p :: ps) emptyRegistry).2
    simp only [runLoop]
    rw [ih, ih]

/-- The registry after a concatenated pack list is the registry of the
second part started from the registry of the first. -/
theorem runLoop_append_fst (env : Env) :
    ∀ (xs ys : List PackConfig) (reg : Registry),
      (runLoop env (xs ++ ys) reg).1
        = (runLoop env ys (runLoop env xs reg).1).1 := by
  intro xs
  induction xs with
  | nil => intro ys reg; rfl
  | cons p xs ih =>
    intro ys reg
    simp only [List.cons_append, runLoop, List.append_eq, ih]

/-- Pack-loop traces concatenate. -/
theorem loopTrace_append (env : Env) (xs ys : List PackConfig) :
    loopTrace env (xs ++ ys) = loopTrace env xs ++ loopTrace env ys := by
  induction xs with
  | nil => rfl
  | cons p xs ih =>
    show (runLoop env (p :: (xs ++ ys)) emptyRegistry).2
      = (runLoop env (p :: xs) emptyRegistry).2 ++ loopTrace env ys
    simp only [runLoop]
    rw [runLoop_trace_indep env (xs ++ ys), runLoop_trace_indep env xs, ih,
      List.append_assoc]

/-- A pack whose processing raises leaves the loop registry unchanged and
contributes only its trace. -/
theorem runLoop_cons_err (env : Env) (p : PackConfig) (ps : List PackConfig)
    (reg : Registry) (e : PErr)
    (h : (process_asset_pack env p).1 = .error e) :
    runLoop env (p :: ps) reg
      = ((runLoop env ps reg).1,
          (process_asset_pack env p).2 ++ (runLoop env ps reg).2) := by
  simp only [runLoop]
  rw [h]

/-- The pack loop never saves the registry. -/
theorem countSave_loopTrace (env : Env) :
    ∀ ps : List PackConfig, countSave (loopTrace env ps) = 0 := by
  intro ps
  induction ps with
  | nil => rfl
  | cons p ps ih =>
    show countSave (runLoop env (p :: ps) emptyRegistry).2 = 0
    simp only [runLoop]
    rw [runLoop_trace_indep env ps, countSave_append, countSave_process, ih]

/-- C1: per-pack failure isolation with a single final save
(`AssetPipeline.run`, lines 227-234).  If one pack's processing raises at
any stage, the final registry is the same as if that pack were absent
(every other pack, before or after it, is still processed with exactly
its usual effect), the failing pack's trace still appears in place in the
run trace, and the run performs exactly one registry save. -/
theorem per_pack_isolation (env : Env) (ps1 ps2 : List PackConfig)
    (p : PackConfig) (e : PErr)
    (h : (process_asset_pack env p).1 = .error e) :
    (run env (ps1 ++ p :: ps2)).1 = (run env (ps1 ++ ps2)).1
    ∧ countSave (run env (ps1 ++ p :: ps2)).2 = 1
    ∧ (run env (ps1 ++ p :: ps2)).2
        = loopTrace env ps1 ++ (process_asset_pack env p).2
            ++ loopTrace env ps2 ++ [.save (metadata_file env.baseDir)] := by
  refine ⟨?_, ?_, ?_⟩
  · show (runLoop env (ps1 ++ p :: ps2) emptyRegistry).1
      = (runLoop env (ps1 ++ ps2) emptyRegistry).1
    rw [runLoop_append_fst, runLoop_append_fst,
      runLoop_cons_err env p ps2 (runLoop env ps1 emptyRegistry).1 e h]
  · show countSave (loopTrace env (ps1 ++ p :: ps2)
      ++ [.save (metadata_file env.baseDir)]) = 1
    rw [countSave_append, countSave_loopTrace]
    rfl
  · show loopTrace env (ps1 ++ p :: ps2)
        ++ [Event.save (metadata_file env.baseDir)] = _
    rw [show (p :: ps2) = [p] ++ ps2 from rfl, loopTrace_append,
      loopTrace_append]
    have h1 : loopTrace env [p] = (process_asset_pack env p).2 := by
      simp [loopTrace, runLoop]
    rw [h1]
    simp

/-- C8: batch atomicity of registry updates (`process_asset_pack` lines
183-204 and `run` lines 227-232).  The registry is extended only after a
pack's entire conversion loop has completed, so a pack whose processing
raises anywhere — download, extraction, location or mid-conversion, even
after some of its assets already converted successfully — contributes
exactly zero registry entries. -/
theorem failed_pack_zero_entries (env : Env) (pack : PackConfig)
    (reg : Registry) (e : PErr)
    (h : (process_asset_pack env pack).1 = .error e) :
    (runLoop env [pack] reg).1 = reg := by
  simp only [runLoop]
  rw [h]

/-- The environment of the C8 witness: Blender-only conversion where the
first located file converts successfully and the script write for the
second file raises mid-loop. -/
def envAtomic : Env :=
  { baseEnvW with
    usd2gltfAvail := false
  , blenderAvail := true
  , blenderOk := fun _ => true
  , treeFiles := fun _ => ["f1.usd", "f2.usd"]
  , writeTextOk := fun _ c =>
      c == blenderScript "f1.usd" "B/public/assets/warehouse/f1.glb" }

/-- C8 witness: at `envAtomic` the first asset converts (Blender ran for
it), the second file's script write raises, and the registry is left
exactly as it was — zero entries for the failed pack. -/
theorem failed_pack_zero_entries_witness :
    Event.runBlender (scriptPath "B") ∈ (process_asset_pack envAtomic packW).2
    ∧ (runLoop envAtomic [packW] emptyRegistry).1 = emptyRegistry :=
  ⟨by decide,
    failed_pack_zero_entries envAtomic packW emptyRegistry .convErr (by decide)⟩

/-- C1 witness: a two-pack run where the first pack's download raises and
the second pack is fully processed: the final registry equals the run
without the failed pack, and exactly one save occurs. -/
def envIsol : Env :=
  { baseEnvW with
    zipExists := fun p => !(p == zipPath "B" "p1")
  , netOutcome := fun _ => .badStatus
  , treeFiles := fun _ => ["a.usd"] }

/-- The second pack of the C1 witness. -/
def packW2 : PackConfig :=
  { id := "p2"
  , url := "https://example.test/p2.zip"
  , category := "industrial"
  , physics := false
  , description := "witness pack 2" }

/-- A successful download always returns the expected archive path. -/
theorem download_ok_shape (env : Env) (packId url z : String)
    (h : (download_asset_pack env packId url).1 = .ok z) :
    z = zipPath env.baseDir packId := by
  by_cases hz : env.zipExists (zipPath env.baseDir packId)
  · simp [download_asset_pack, hz] at h
    exact h.symm
  · rcases hn : env.netOutcome url with _ | _ | ⟨cs, b⟩ <;>
      [skip; skip; cases b] <;>
        simp [download_asset_pack, hz, hn] at h <;> exact h.symm

/-- A successful extraction always returns the expected directory. -/
theorem extract_ok_shape (env : Env) (z packId dir : String)
    (h : (extract_pack env z packId).1 = .ok dir) :
    dir = extractDir env.baseDir packId := by
  by_cases hx : env.extractedExists (extractDir env.baseDir packId) <;>
    by_cases ho : env.extractOk z <;>
      simp [extract_pack, hx, ho] at h <;> exact h.symm

/-- A pack that processes successfully got its result from the conversion
loop over the first ten located files. -/
theorem process_ok_convertLoop (env : Env) (pack : PackConfig)
    (metas : List AssetMeta)
    (h : (process_asset_pack env pack).1 = .ok metas) :
    (convertLoop env pack ((locatedFiles env pack).take 10)).1
      = .ok metas := by
  rcases hd : (download_asset_pack env pack.id pack.url).1 with e | z
  · simp only [process_asset_pack] at h
    rw [hd] at h
    simp at h
  · simp only [process_asset_pack] at h
    rw [hd] at h
    dsimp only at h
    rcases hx : (extract_pack env z pack.id).1 with e | dir
    · rw [hx] at h
      dsimp only at h
      simp at h
    · rw [hx] at h
      dsimp only at h
      rw [extract_ok_shape env z pack.id dir hx] at h
      exact h

/-- The converter calls of a pack that processes successfully are those
of its conversion loop. -/
theorem tryInputs_process_ok (env : Env) (pack : PackConfig)
    (metas : List AssetMeta)
    (h : (process_asset_pack env pack).1 = .ok metas) :
    tryInputs (process_asset_pack env pack).2
      = tryInputs (convertLoop env pack ((locatedFiles env pack).take 10)).2 := by
  rcases hd : (download_asset_pack env pack.id pack.url).1 with e | z
  · simp only [process_asset_pack] at h
    rw [hd] at h
    simp at h
  · rcases hx : (extract_pack env z pack.id).1 with e | dir
    · simp only [process_asset_pack] at h
      rw [hd] at h
      dsimp only at h
      rw [hx] at h
      dsimp only at h
      simp at h
    · simp only [process_asset_pack]
      rw [hd]
      dsimp only
      rw [hx]
      dsimp only
      rw [extract_ok_shape env z pack.id dir hx, tryInputs_append,
        tryInputs_append, tryInputs_download, tryInputs_extract]
      rfl

/-- C6: hard per-pack processing cap (`process_asset_pack` line 185).
The converter is called on an initial segment of the first ten located
files only; when the pack processes successfully the calls are exactly
the first ten located files, and the registry entries it produces are the
records of the successfully converted files among those ten — never more
than ten, and never a file at position eleven or beyond. -/
theorem conversion_cap (env : Env) (pack : PackConfig) :
    (∃ k, tryInputs (process_asset_pack env pack).2
        = ((locatedFiles env pack).take 10).take k)
    ∧ ∀ metas, (process_asset_pack env pack).1 = .ok metas →
        tryInputs (process_asset_pack env pack).2
          = (locatedFiles env pack).take 10
        ∧ metas = (((locatedFiles env pack).take 10).filter
            (fun f => convertOk env f)).map (metaOf pack)
        ∧ metas.length ≤ 10 := by
  constructor
  · rcases tryInputs_process env pack with h | h
    · rcases (tryInputs_convertLoop env pack
          ((locatedFiles env pack).take 10)).1 with ⟨k, hk⟩
      exact ⟨k, by rw [h, hk]⟩
    · exact ⟨0, by rw [h]; rfl⟩
  · intro metas h
    have hc := process_ok_convertLoop env pack metas h
    refine ⟨?_, ?_, ?_⟩
    · rw [tryInputs_process_ok env pack metas h]
      exact (tryInputs_convertLoop env pack
        ((locatedFiles env pack).take 10)).2 metas hc
    · exact convertLoop_ok_metas env pack ((locatedFiles env pack).take 10)
        metas hc
    · rw [convertLoop_ok_metas env pack ((locatedFiles env pack).take 10)
        metas hc]
      rw [List.length_map]
      exact le_trans (List.length_filter_le _ _) (List.length_take_le _ _)

/-- The environment of the C6 witness: two located scene files, all
conversions succeeding. -/
def envCap : Env := { baseEnvW with treeFiles := fun _ => ["a.usd", "b.usd"] }

/-- C6 witness: at `envCap` the converter is called on exactly the first
ten (here: all two) located files. -/
theorem conversion_cap_witness :
    tryInputs (process_asset_pack envCap packW).2
      = (locatedFiles envCap packW).take 10 :=
  ((conversion_cap envCap packW).2
      ((((locatedFiles envCap packW).take 10).filter
          (fun f => convertOk envCap f)).map (metaOf packW))
      (by decide)).1

/-- Successes and failures of conversion partition the located files. -/
theorem countP_convert_split (env : Env) (l : List String) :
    l.countP (fun f => convertOk env f)
      + l.countP (fun f => !(convertOk env f)) = l.length := by
  induction l with
  | nil => rfl
  | cons a l ih =>
    cases h : convertOk env a <;> simp [List.countP_cons, h] <;> omega

/-- C3 (amended: restricted to packs whose locator finds at most ten
scene files, the hard processing cap of line 185 — see the counterexample
`per_asset_isolation_cx`): when download and extraction succeed, every
script write succeeds (so conversion failures return `False` rather than
raising), and the locator finds `N ≤ 10` files of which `M` fail
conversion, the pack reaches `CATALOGED` and exactly `N - M` entries, the
records of the successful files in order, are appended under the pack's
category. -/
theorem per_asset_isolation (env : Env) (pack : PackConfig) (reg : Registry)
    (hd : (download_asset_pack env pack.id pack.url).1
        = .ok (zipPath env.baseDir pack.id))
    (hx : (extract_pack env (zipPath env.baseDir pack.id) pack.id).1
        = .ok (extractDir env.baseDir pack.id))
    (hw : ∀ p c, env.writeTextOk p c = true)
    (hN : (locatedFiles env pack).length ≤ 10) :
    packStatus env pack = .cataloged
    ∧ (runLoop env [pack] reg).1 pack.category
        = reg pack.category
          ++ ((locatedFiles env pack).filter (fun f => convertOk env f)).map
              (metaOf pack)
    ∧ ((runLoop env [pack] reg).1 pack.category).length
        = (reg pack.category).length
          + ((locatedFiles env pack).length
              - (locatedFiles env pack).countP (fun f => !(convertOk env f))) := by
  have hp : (process_asset_pack env pack).1
      = .ok (((locatedFiles env pack).filter
          (fun f => convertOk env f)).map (metaOf pack)) := by
    simp only [process_asset_pack]
    rw [hd]
    dsimp only
    rw [hx]
    dsimp only
    show (convertLoop env pack ((locatedFiles env pack).take 10)).1 = _
    rw [List.take_of_length_le hN, convertLoop_noexc env pack hw]
  have hreg : (runLoop env [pack] reg).1
      = recordAssets reg pack.category
          (((locatedFiles env pack).filter
            (fun f => convertOk env f)).map (metaOf pack)) := by
    simp only [runLoop]
    rw [hp]
  refine ⟨?_, ?_, ?_⟩
  · simp [packStatus, hp]
  · rw [hreg]
    simp [recordAssets]
  · rw [hreg]
    simp only [recordAssets, if_pos]
    rw [List.length_append, List.length_map,
      ← List.countP_eq_length_filter]
    have hsplit := countP_convert_split env (locatedFiles env pack)
    omega

/-- The environment of the C3 witness: three located files, the middle
one failing conversion. -/
def envIsoAsset : Env :=
  { baseEnvW with
    treeFiles := fun _ => ["a.usd", "bb_x.usd", "c.usda"]
  , usd2gltfOk := fun f => !(f == "bb_x.usd") }

/-- C3 witness: three located files, one failing conversion, yield a
cataloged pack with exactly two registry entries. -/
theorem per_asset_isolation_witness :
    packStatus envIsoAsset packW = .cataloged
    ∧ ((runLoop envIsoAsset [packW] emptyRegistry).1 "warehouse").length = 2 :=
  ⟨(per_asset_isolation envIsoAsset packW emptyRegistry rfl rfl
      (fun _ _ => rfl) (by decide)).1,
    (per_asset_isolation envIsoAsset packW emptyRegistry rfl rfl
      (fun _ _ => rfl) (by decide)).2.2⟩

/-- The environment of the C3 counterexample: eleven located scene files,
every conversion succeeding. -/
def envEleven : Env :=
  { baseEnvW with
    treeFiles := fun _ =>
      ["a.usd", "b.usd", "c.usd", "d.usd", "e.usd", "f.usd", "g.usd",
        "h.usd", "i.usd", "j.usd", "k.usd"] }

/-- C3 counterexample: a pack whose locator finds `N = 11` scene files of
which `M = 0` fail conversion still reaches `CATALOGED` but appends only
ten registry entries, not `N - M = 11`: the per-pack processing cap
bounds the appended entries, refuting the claim for `N > 10`. -/
theorem per_asset_isolation_cx :
    (locatedFiles envEleven packW).length = 11
    ∧ (locatedFiles envEleven packW).countP
        (fun f => !(convertOk envEleven f)) = 0
    ∧ packStatus envEleven packW = .cataloged
    ∧ ((runLoop envEleven [packW] emptyRegistry).1 "warehouse").length = 10
    ∧ ((runLoop envEleven [packW] emptyRegistry).1 "warehouse").length
        ≠ (locatedFiles envEleven packW).length
          - (locatedFiles envEleven packW).countP
              (fun f => !(convertOk envEleven f)) := by
  refine ⟨by decide, by decide, by decide, by decide, by decide⟩

/-- C1 witness: with `envIsol`, pack `p1` fails to download yet pack `p2`
is still processed and cataloged, and the registry is saved once. -/
theorem per_pack_isolation_witness :
    (run envIsol [packW, packW2]).1 = (run envIsol [packW2]).1
    ∧ countSave (run envIsol [packW, packW2]).2 = 1
    ∧ ((run envIsol [packW, packW2]).1 "industrial").length = 1 :=
  ⟨(per_pack_isolation envIsol [] [packW2] packW .downloadErr (by decide)).1,
    (per_pack_isolation envIsol [] [packW2] packW .downloadErr (by decide)).2.1,
    by decide⟩

/-- Filtering with two mutually exclusive predicates and concatenating is
a permutation of filtering with their disjunction. -/
theorem filter_append_perm_of_excl {α : Type} (p q : α → Bool)
    (h : ∀ a, p a = true → q a = false) (l : List α) :
    List.Perm (l.filter p ++ l.filter q)
      (l.filter (fun a => p a || q a)) := by
  induction l with
  | nil => simp
  | cons a l ih =>
    cases hp : p a
    · cases hq : q a
      · simpa [List.filter_cons, hp, hq] using ih
      · simp only [List.filter_cons, hp, hq, Bool.false_or, if_true, if_false]
        exact List.perm_middle.trans (ih.cons a)
    · have hq : q a = false := h a hp
      simp only [List.filter_cons, hp, hq, Bool.true_or, if_true, if_false]
      exact ih.cons a

/-- Two suffix checks against the same reversed character list agree on
their common length. -/
theorem extMatches_excl (e1 e2 f : String)
    (hlen : e1.data.length ≤ e2.data.length)
    (hne : e2.data.reverse.take e1.data.length ≠ e1.data.reverse)
    (h1 : extMatches e1 f = true) : extMatches e2 f = false := by
  rw [extMatches, decide_eq_true_eq] at h1
  rw [extMatches]
  apply decide_eq_false
  intro h2
  apply hne
  rw [← h2, List.take_take, Nat.min_eq_left hlen, h1]

/-- C7 (amended: the locator returns exactly the files carrying one of
the four recognized extensions — the same multiset as a single
traversal-order filter, and the empty sequence when none match — but
grouped by extension in the fixed order `.usd`, `.usda`, `.usdc`,
`.usdz`, each group in traversal order, rather than in plain
filesystem-traversal order; see the counterexample
`locate_scene_files_cx`).  One `rglob` pass per extension is run and the
passes' results are concatenated (`find_usd_files`, lines 103-111). -/
theorem locate_scene_files (files : List String) :
    find_usd_files files
      = files.filter (extMatches ".usd") ++ files.filter (extMatches ".usda")
        ++ files.filter (extMatches ".usdc")
        ++ files.filter (extMatches ".usdz")
    ∧ List.Perm (find_usd_files files) (files.filter isUsdFile)
    ∧ ((∀ f ∈ files, isUsdFile f = false) → find_usd_files files = []) := by
  have hgrp : find_usd_files files
      = files.filter (extMatches ".usd") ++ files.filter (extMatches ".usda")
        ++ files.filter (extMatches ".usdc")
        ++ files.filter (extMatches ".usdz") := by
    simp [find_usd_files, usd_extensions, List.foldl, List.append_assoc]
  have h12 : List.Perm
      (files.filter (extMatches ".usd") ++ files.filter (extMatches ".usda"))
      (files.filter (fun a => extMatches ".usd" a || extMatches ".usda" a)) :=
    filter_append_perm_of_excl _ _
      (fun a => extMatches_excl ".usd" ".usda" a (by decide) (by decide)) files
  have h123 : List.Perm
      (files.filter (fun a => extMatches ".usd" a || extMatches ".usda" a)
        ++ files.filter (extMatches ".usdc"))
      (files.filter (fun a =>
        (extMatches ".usd" a || extMatches ".usda" a)
          || extMatches ".usdc" a)) :=
    filter_append_perm_of_excl _ _
      (fun a ha => by
        rcases Bool.or_eq_true_iff.mp ha with h | h
        · exact extMatches_excl ".usd" ".usdc" a (by decide) (by decide) h
        · exact extMatches_excl ".usda" ".usdc" a (by decide) (by decide) h)
      files
  have h1234 : List.Perm
      (files.filter (fun a =>
          (extMatches ".usd" a || extMatches ".usda" a)
            || extMatches ".usdc" a)
        ++ files.filter (extMatches ".usdz"))
      (files.filter (fun a =>
        ((extMatches ".usd" a || extMatches ".usda" a)
          || extMatches ".usdc" a) || extMatches ".usdz" a)) :=
    filter_append_perm_of_excl _ _
      (fun a ha => by
        rcases Bool.or_eq_true_iff.mp ha with h | h
        · rcases Bool.or_eq_true_iff.mp h with h2 | h2
          · exact extMatches_excl ".usd" ".usdz" a (by decide) (by decide) h2
          · exact extMatches_excl ".usda" ".usdz" a (by decide) (by decide) h2
        · exact extMatches_excl ".usdc" ".usdz" a (by decide) (by decide) h)
      files
  have hflat : files.filter (fun a =>
      ((extMatches ".usd" a || extMatches ".usda" a)
        || extMatches ".usdc" a) || extMatches ".usdz" a)
      = files.filter isUsdFile := by
    apply List.filter_congr
    intro a _
    simp [isUsdFile, usd_extensions, Bool.or_assoc]
  have hperm : List.Perm (find_usd_files files) (files.filter isUsdFile) := by
    rw [hgrp, ← hflat]
    exact ((List.Perm.append_right _
        (List.Perm.append_right _ h12)).trans
          (List.Perm.append_right _ h123)).trans h1234
  refine ⟨hgrp, hperm, ?_⟩
  intro hnone
  have hnil : files.filter isUsdFile = [] :=
    List.filter_eq_nil_iff.mpr (fun a ha => by simp [hnone a ha])
  exact List.Perm.eq_nil (hnil ▸ hperm)

/-- C7 counterexample: on the traversal order `["a.usda", "b.usd"]` the
locator returns `["b.usd", "a.usda"]` — grouped by extension — while the
traversal-order filter keeps `["a.usda", "b.usd"]`, refuting the claimed
filesystem-traversal ordering of the results. -/
theorem locate_scene_files_cx :
    find_usd_files ["a.usda", "b.usd"] = ["b.usd", "a.usda"]
    ∧ ["a.usda", "b.usd"].filter isUsdFile = ["a.usda", "b.usd"]
    ∧ find_usd_files ["a.usda", "b.usd"]
        ≠ ["a.usda", "b.usd"].filter isUsdFile :=
  ⟨by decide, by decide, by decide⟩

/-- C7 witness: a tree with no scene-description files yields the empty
sequence, not an error. -/
theorem locate_scene_files_witness :
    find_usd_files ["notes.txt", "mesh.obj"] = [] :=
  (locate_scene_files ["notes.txt", "mesh.obj"]).2.2 (by decide)

end SnapLock
